import Mathlib

/-!
Shallow embedding of the DNS server's message codec and request handling
(`src/main.rs`) together with theorems about the codec's behaviour.

Modelling conventions:
* Bytes are `Nat` values (`< 256` for real wire data); machine arithmetic
  that can wrap in Rust (`u8` shifts, `usize → u16` casts) is modelled with
  explicit `% 2^w` / `&&&` at the same places.
* Fallible Rust code returning `Result<T, Error>` becomes
  `Except DnsError T`.
* Code that can panic (unchecked slice indexing, `usize` subtraction
  underflow) is wrapped in `Option`: `none` means the Rust code panics
  (out-of-bounds index, or an arithmetic underflow that panics in a debug
  build and produces an out-of-bounds index after wraparound in a release
  build); `some r` means it returns `r`.
* The recursive name decoder `parse_labels` can recurse unboundedly through
  compression-pointer cycles (stack overflow in Rust); the embedding takes a
  fuel parameter, decremented at every recursive step, and returns `none`
  when fuel runs out. Every terminating run of the Rust code is reproduced
  by every sufficiently large fuel.
-/

namespace DnsServer

/-- The error enum of `src/main.rs` (the `Io(std::io::Error)` payload is
irrelevant to the codec and dropped). -/
inductive DnsError where
  | InvalidHeader
  | InvalidQuestion
  | InvalidResponse
  | IoError
deriving DecidableEq, Repr

/-- `struct DnsMessageHeader` of `src/main.rs`. `u16` fields, the 4-bit
`op_code`/`rcode` and the 3-bit `z` (all `u8` in Rust) are modelled as `Nat`;
real values are below `2^16` resp. `2^8`. -/
structure DnsMessageHeader where
  id : Nat
  qr : Bool
  op_code : Nat
  aa : Bool
  tc : Bool
  rd : Bool
  ra : Bool
  z : Nat
  rcode : Nat
  qd_count : Nat
  an_count : Nat
  ns_count : Nat
  ar_count : Nat
deriving DecidableEq, Repr

/-- `struct DnsMessageQuestion`: the decoded (fully expanded, length-prefixed,
zero-terminated) name plus the two big-endian `u16` fields. The Rust field
`class` is a Lean keyword and is rendered `qclass`. -/
structure DnsMessageQuestion where
  name : List Nat
  qtype : Nat
  qclass : Nat
deriving DecidableEq, Repr

/-- `struct DnsMessageResponse` (a decoded resource record). -/
structure DnsMessageResponse where
  name : List Nat
  qtype : Nat
  qclass : Nat
  ttl : Nat
  length : Nat
  data : List Nat
deriving DecidableEq, Repr

/-- `b as u8` for a Rust `bool`. -/
def b2n (b : Bool) : Nat := if b then 1 else 0

/-- `u16::to_be_bytes` for a value below `2^16`. -/
def u16_be (n : Nat) : List Nat := [n / 256 % 256, n % 256]

/-- `u32::to_be_bytes` for a value below `2^32`. -/
def u32_be (n : Nat) : List Nat :=
  [n / 16777216 % 256, n / 65536 % 256, n / 256 % 256, n % 256]

/-- `impl From<&DnsMessageHeader> for [u8; 12]` (src/main.rs lines 88-113).
The `u8` left shifts of `op_code` and `z` wrap modulo 256 exactly as Rust's
`<<` on `u8` does. -/
def headerToBytes (h : DnsMessageHeader) : List Nat :=
  u16_be h.id ++
  [ (b2n h.qr <<< 7) ||| ((h.op_code <<< 3) % 256) ||| (b2n h.aa <<< 2) |||
      (b2n h.tc <<< 1) ||| b2n h.rd,
    (b2n h.ra <<< 7) ||| ((h.z <<< 4) % 256) ||| h.rcode ] ++
  u16_be h.qd_count ++ u16_be h.an_count ++ u16_be h.ns_count ++
  u16_be h.ar_count

/-- `impl TryFrom<&[u8]> for DnsMessageHeader` (src/main.rs lines 43-86). -/
def headerTryFrom (bytes : List Nat) : Except DnsError DnsMessageHeader :=
  if bytes.length ≠ 12 then .error .InvalidHeader
  else
    let b := fun i => bytes.getD i 0
    .ok
      { id := b 0 * 256 + b 1
        qr := (b 2 &&& 128) != 0
        op_code := (b 2 &&& 120) >>> 3
        aa := (b 2 &&& 4) != 0
        tc := (b 2 &&& 2) != 0
        rd := (b 2 &&& 1) != 0
        ra := (b 3 &&& 128) != 0
        z := (b 3 &&& 112) >>> 4
        rcode := b 3 &&& 15
        qd_count := b 4 * 256 + b 5
        an_count := b 6 * 256 + b 7
        ns_count := b 8 * 256 + b 9
        ar_count := b 10 * 256 + b 11 }

/-- `impl From<&DnsMessageQuestion> for Vec<u8>` (src/main.rs lines 122-131). -/
def questionToBytes (q : DnsMessageQuestion) : List Nat :=
  q.name ++ u16_be q.qtype ++ u16_be q.qclass

/-- `impl From<&DnsMessageResponse> for Vec<u8>` (src/main.rs lines 143-155). -/
def responseToBytes (r : DnsMessageResponse) : List Nat :=
  r.name ++ u16_be r.qtype ++ u16_be r.qclass ++ u32_be r.ttl ++
  u16_be r.length ++ r.data

/-- `is_valid_compression_pointer` (src/main.rs lines 170-172). -/
def is_valid_compression_pointer (b : Nat) : Bool :=
  b >>> 6 &&& 3 == 3

/-- The loop body of `parse_labels` (src/main.rs lines 169-202), written as a
fuel-indexed recursion. Returns the accumulated label bytes together with the
index of the last byte belonging to the name at the current position (the
terminating zero byte, or the second byte of a terminating compression
pointer). `none` models a Rust panic (out-of-bounds index, pointer-offset
underflow below 12) or fuel exhaustion (the Rust code recursing without
bound). -/
def parseLabelsGo : Nat → List Nat → Nat → Option (Except DnsError (List Nat × Nat))
  | 0, _, _ => none
  | fuel + 1, data, index =>
    match data.get? index with
    | none => none
    | some b =>
      if b = 0 then some (.ok ([0], index))
      else if b ≤ 63 then
        -- `labels.extend_from_slice(&data[index..index + b + 1])`
        if index + b + 1 ≤ data.length then
          match parseLabelsGo fuel data (index + b + 1) with
          | some (.ok (rest, fin)) =>
            some (.ok ((data.drop index).take (b + 1) ++ rest, fin))
          | some (.error e) => some (.error e)
          | none => none
        else none
      else if is_valid_compression_pointer b then
        match data.get? (index + 1) with
        | none => none
        | some b2 =>
          -- `offset &= !(0b11 << 14)` on the big-endian u16 [b, b2]
          let offset := (b * 256 + b2) &&& 16383
          -- `offset as usize - 12`: underflow panics (debug) or wraps to an
          -- out-of-bounds index (release) when offset < 12
          if offset < 12 then none
          else
            match parseLabelsGo fuel data (offset - 12) with
            | some (.ok (tlabels, _)) => some (.ok (tlabels, index + 1))
            | some (.error e) => some (.error e)
            | none => none
      else some (.error .InvalidQuestion)

/-- `parse_labels` (src/main.rs lines 169-202): label bytes plus
`bytes_consumed = index + 1 - l_index`. -/
def parse_labels (fuel : Nat) (data : List Nat) (l_index : Nat) :
    Option (Except DnsError (List Nat × Nat)) :=
  match parseLabelsGo fuel data l_index with
  | some (.ok (labels, fin)) => some (.ok (labels, fin + 1 - l_index))
  | some (.error e) => some (.error e)
  | none => none

/-- `parse_question` (src/main.rs lines 163-238). `size` is the caller's
declared byte count (the received datagram size minus 12), which can differ
from `data.length` (in the server `data` is always the 500-byte tail of the
fixed receive buffer). -/
def parse_question (fuel : Nat) (data : List Nat) (size : Nat) (q_index : Nat) :
    Option (Except DnsError (DnsMessageQuestion × Nat)) :=
  match data.get? q_index with
  | none => none
  | some b =>
    if b = 0 then some (.error .InvalidQuestion)
    else if size < q_index + b + 1 then some (.error .InvalidQuestion)
    else
      match parse_labels fuel data q_index with
      | none => none
      | some (.error e) => some (.error e)
      | some (.ok (labels, label_size_in_bytes)) =>
        if q_index + label_size_in_bytes + 4 > size then
          some (.error .InvalidQuestion)
        else
          match data.get? (q_index + label_size_in_bytes),
                data.get? (q_index + label_size_in_bytes + 1),
                data.get? (q_index + label_size_in_bytes + 2),
                data.get? (q_index + label_size_in_bytes + 3) with
          | some t1, some t2, some c1, some c2 =>
            some (.ok
              ({ name := labels, qtype := t1 * 256 + t2,
                 qclass := c1 * 256 + c2 }, label_size_in_bytes + 4))
          | _, _, _, _ => none

/-- The question loop of `dns_questions_from_bytes` (src/main.rs lines
240-248), recursing over the remaining question count with a running byte
cursor. -/
def dnsQuestionsGo (fuel : Nat) (data : List Nat) (size : Nat) :
    Nat → Nat → Option (Except DnsError (List DnsMessageQuestion))
  | _, 0 => some (.ok [])
  | index, n + 1 =>
    match parse_question fuel data size index with
    | some (.ok (q, size_in_bytes)) =>
      match dnsQuestionsGo fuel data size (index + size_in_bytes) n with
      | some (.ok qs) => some (.ok (q :: qs))
      | some (.error e) => some (.error e)
      | none => none
    | some (.error e) => some (.error e)
    | none => none

/-- `dns_questions_from_bytes` (src/main.rs lines 157-249). -/
def dns_questions_from_bytes (fuel : Nat) (data : List Nat) (size : Nat)
    (nr_of_questions : Nat) :
    Option (Except DnsError (List DnsMessageQuestion)) :=
  dnsQuestionsGo fuel data size 0 nr_of_questions

/-- The `name` built by `dns_response_from_bytes` (src/main.rs lines 256-262):
all bytes up to the first zero, with a zero byte pushed at the end. -/
def respNameOf (data : List Nat) : List Nat :=
  data.takeWhile (fun b => b != 0) ++ [0]

/-- The big-endian `length` (rdlength) field read by `dns_response_from_bytes`
(src/main.rs line 277). -/
def respRdlenOf (data : List Nat) : Nat :=
  data.getD ((respNameOf data).length + 8) 0 * 256 +
    data.getD ((respNameOf data).length + 9) 0

/-- `dns_response_from_bytes` (src/main.rs lines 251-294). `none` models the
panic on `data[0]` when the slice is empty; all later reads are guarded by
the two length checks exactly as in the source. -/
def dns_response_from_bytes (data : List Nat) :
    Option (Except DnsError DnsMessageResponse) :=
  match data.get? 0 with
  | none => none
  | some b0 =>
    if b0 = 0 then some (.error .InvalidResponse)
    else
      let name := respNameOf data
      if name.length + 10 > data.length then some (.error .InvalidResponse)
      else
        let g := fun i => data.getD i 0
        let qtype := g name.length * 256 + g (name.length + 1)
        let qclass := g (name.length + 2) * 256 + g (name.length + 3)
        let ttl := g (name.length + 4) * 16777216 + g (name.length + 5) * 65536 +
          g (name.length + 6) * 256 + g (name.length + 7)
        let length := respRdlenOf data
        if name.length + 10 + length > data.length then
          some (.error .InvalidResponse)
        else
          some (.ok
            { name := name, qtype := qtype, qclass := qclass, ttl := ttl,
              length := length,
              data := (data.drop (name.length + 10)).take length })

/-- One iteration of the loop in `resolve_questions` (src/main.rs lines
308-327): build the upstream query from the prepared header bytes `hb` and
one question, send it, receive into a zeroed 512-byte buffer, and decode one
resource record from the bytes after the 12-byte header and the echoed
question. The upstream round-trip is abstracted as the oracle `net`, whose
`Except.error` covers a transport failure of `send`/`recv_from`. -/
def processOne (net : List Nat → Except Unit (List Nat)) (hb : List Nat)
    (q : DnsMessageQuestion) : Option (Except DnsError DnsMessageResponse) :=
  let qbytes := questionToBytes q
  match net (hb ++ qbytes) with
  | .error _ => some (.error .IoError)
  | .ok reply =>
    let buf := reply.take 512 ++ List.replicate (512 - (reply.take 512).length) 0
    -- `&resolver_buf[12 + resolver_question_bytes.len()..]` panics when the
    -- start index exceeds 512
    if 12 + qbytes.length ≤ 512 then
      dns_response_from_bytes (buf.drop (12 + qbytes.length))
    else none

/-- The loop of `resolve_questions` (src/main.rs lines 308-327): strictly
sequential, aborting the whole batch on the first failed question (the `?`
operator). -/
def resolveGo (net : List Nat → Except Unit (List Nat)) (hb : List Nat) :
    List DnsMessageQuestion → Option (Except DnsError (List DnsMessageResponse))
  | [] => some (.ok [])
  | q :: qs =>
    match processOne net hb q with
    | some (.ok r) =>
      match resolveGo net hb qs with
      | some (.ok rs) => some (.ok (r :: rs))
      | some (.error e) => some (.error e)
      | none => none
    | some (.error e) => some (.error e)
    | none => none

/-- `resolve_questions` (src/main.rs lines 296-329): the upstream request
header is the inbound header with `qd_count` forced to 1, serialized once. -/
def resolve_questions (net : List Nat → Except Unit (List Nat))
    (header : DnsMessageHeader) (questions : List DnsMessageQuestion) :
    Option (Except DnsError (List DnsMessageResponse)) :=
  resolveGo net (headerToBytes { header with qd_count := 1 }) questions

/-- The response-header mutation performed in `main` (src/main.rs lines
367-375 and 402-410): `qr` forced true, `qd_count`/`an_count` rewritten from
the decoded questions and obtained answers (`usize as u16` truncates mod
2^16), `rcode` recomputed from `op_code`. -/
def build_response_header (h : DnsMessageHeader) (nq na : Nat) :
    DnsMessageHeader :=
  { h with
    qr := true
    qd_count := nq % 65536
    an_count := na % 65536
    rcode := if h.op_code = 0 then 0 else 4 }

/-- The response buffer assembled in `main` (src/main.rs lines 377-394 and
412-423): header bytes, then the echoed questions in original order, then the
answers in question order. -/
def assemble (h : DnsMessageHeader) (questions : List DnsMessageQuestion)
    (answers : List DnsMessageResponse) : List Nat :=
  headerToBytes (build_response_header h questions.length answers.length) ++
  (questions.map questionToBytes).flatten ++
  (answers.map responseToBytes).flatten

/-- The per-datagram body of `main`'s receive loop (src/main.rs lines
354-435), for a datagram `buf` of received size `size` (the server's `buf` is
a fixed 512-byte array, so `buf.length = 512` and `12 ≤ size` in every real
invocation reaching the question parser). `net = none` models the
no-upstream-resolver configuration. Outer `none` is a panic inside a codec;
`some none` means the datagram is dropped with no reply (header or question
parse failure); `some (some bytes)` is the reply datagram. -/
def handle_request (fuel : Nat) (net : Option (List Nat → Except Unit (List Nat)))
    (buf : List Nat) (size : Nat) : Option (Option (List Nat)) :=
  match headerTryFrom (buf.take 12) with
  | .error _ => some none
  | .ok header =>
    match dns_questions_from_bytes fuel (buf.drop 12) (size - 12)
        header.qd_count with
    | none => none
    | some (.error _) => some none
    | some (.ok questions) =>
      let maybe_answers :=
        match net with
        | some n => resolve_questions n header questions
        | none => some (.ok [])
      match maybe_answers with
      | none => none
      | some (.ok answers) => some (some (assemble header questions answers))
      | some (.error _) => some (some (assemble header questions []))

deriving instance DecidableEq for Except

/-! ### Concrete fixtures used by closed witness and counterexample theorems -/

/-- A request header: `id = 0x1234`, recursion desired, one question. -/
def exHeader : DnsMessageHeader :=
  { id := 4660, qr := false, op_code := 0, aa := false, tc := false,
    rd := true, ra := false, z := 0, rcode := 0, qd_count := 1,
    an_count := 0, ns_count := 0, ar_count := 0 }

/-- The question `abc.com`, qtype 1 (A), class 1 (IN), as decoded. -/
def exQuestion : DnsMessageQuestion :=
  { name := [3, 97, 98, 99, 3, 99, 111, 109, 0], qtype := 1, qclass := 1 }

/-- A full 25-byte request datagram: `exHeader` followed by the wire form of
`exQuestion`. -/
def exRequest : List Nat :=
  headerToBytes exHeader ++ [3, 97, 98, 99, 3, 99, 111, 109, 0, 0, 1, 0, 1]

/-- An upstream oracle whose round-trip always fails at the transport level. -/
def exFailNet : List Nat → Except Unit (List Nat) := fun _ => Except.error ()

/-- An upstream oracle that replies with a well-formed answer for
`exQuestion`: 12 reply-header bytes, 13 echoed question bytes, then an A
record `8.8.8.8` with ttl 60. -/
def exGoodNet : List Nat → Except Unit (List Nat) := fun _ =>
  Except.ok (List.replicate 25 0 ++
    [3, 97, 98, 99, 3, 99, 111, 109, 0, 0, 1, 0, 1, 0, 0, 0, 60, 0, 4, 8, 8, 8, 8])

/-- The record `exGoodNet`'s reply decodes to. -/
def exAnswer : DnsMessageResponse :=
  { name := [3, 97, 98, 99, 3, 99, 111, 109, 0], qtype := 1, qclass := 1,
    ttl := 60, length := 4, data := [8, 8, 8, 8] }

/-! ### Helper lemmas -/

/-- `b as u8` of a Rust `bool` is below 2. -/
theorem b2n_lt_two (b : Bool) : b2n b < 2 := by cases b <;> simp [b2n]

/-- Indexing an append at the left part's length reads the right part's head. -/
theorem get?_append_len (pre rest : List Nat) :
    (pre ++ rest).get? pre.length = rest.get? 0 := by
  rw [List.get?_append_right (le_refl _)]
  simp

/-- Indexing an append at the left part's length plus `k` reads the right
part at `k`. -/
theorem get?_append_len_add (pre rest : List Nat) (k : Nat) :
    (pre ++ rest).get? (pre.length + k) = rest.get? k := by
  rw [List.get?_append_right (Nat.le_add_right _ _)]
  simp

/-- A successful `parseLabelsGo` run never returns an empty label list. -/
theorem parseLabelsGo_ok_ne_nil :
    ∀ (fuel : Nat) (data : List Nat) (i : Nat) (ls : List Nat) (fin : Nat),
      parseLabelsGo fuel data i = some (.ok (ls, fin)) → ls ≠ [] := by
  intro fuel
  induction fuel with
  | zero => intro data i ls fin h; simp [parseLabelsGo] at h
  | succ fuel ih =>
    intro data i ls fin h
    simp only [parseLabelsGo] at h
    split at h
    · simp at h
    · split at h
      · simp only [Option.some.injEq, Except.ok.injEq, Prod.mk.injEq] at h
        rcases h with ⟨h1, _⟩
        rw [← h1]
        simp
      · split at h
        · split at h
          · split at h
            next rest fin' hrec =>
              simp only [Option.some.injEq, Except.ok.injEq,
                Prod.mk.injEq] at h
              rcases h with ⟨h1, _⟩
              rw [← h1]
              intro hcon
              rcases List.append_eq_nil.mp hcon with ⟨_, h3⟩
              exact ih data _ rest fin' hrec h3
            next e hrec => simp at h
            next hrec => simp at h
          · simp at h
        · split at h
          · split at h
            · simp at h
            · split at h
              · simp at h
              · split at h
                next tl fin' hrec =>
                  simp only [Option.some.injEq, Except.ok.injEq,
                    Prod.mk.injEq] at h
                  rcases h with ⟨h1, _⟩
                  rw [← h1]
                  exact ih data _ tl fin' hrec
                next e hrec => simp at h
                next hrec => simp at h
          · simp at h

/-- Bit extraction of `qr` from the first flags byte. -/
theorem f1_mask_qr : ∀ q < 2, ∀ o < 16, ∀ a < 2, ∀ t < 2, ∀ r < 2,
    ((q <<< 7 ||| (o <<< 3) % 256 ||| a <<< 2 ||| t <<< 1 ||| r) &&& 128) = q * 128 := by
  decide

/-- Bit extraction of `op_code` from the first flags byte. -/
theorem f1_mask_op : ∀ q < 2, ∀ o < 16, ∀ a < 2, ∀ t < 2, ∀ r < 2,
    ((q <<< 7 ||| (o <<< 3) % 256 ||| a <<< 2 ||| t <<< 1 ||| r) &&& 120) >>> 3 = o := by
  decide

/-- Bit extraction of `aa` from the first flags byte. -/
theorem f1_mask_aa : ∀ q < 2, ∀ o < 16, ∀ a < 2, ∀ t < 2, ∀ r < 2,
    ((q <<< 7 ||| (o <<< 3) % 256 ||| a <<< 2 ||| t <<< 1 ||| r) &&& 4) = a * 4 := by
  decide

/-- Bit extraction of `tc` from the first flags byte. -/
theorem f1_mask_tc : ∀ q < 2, ∀ o < 16, ∀ a < 2, ∀ t < 2, ∀ r < 2,
    ((q <<< 7 ||| (o <<< 3) % 256 ||| a <<< 2 ||| t <<< 1 ||| r) &&& 2) = t * 2 := by
  decide

/-- Bit extraction of `rd` from the first flags byte. -/
theorem f1_mask_rd : ∀ q < 2, ∀ o < 16, ∀ a < 2, ∀ t < 2, ∀ r < 2,
    ((q <<< 7 ||| (o <<< 3) % 256 ||| a <<< 2 ||| t <<< 1 ||| r) &&& 1) = r := by
  decide

/-- Bit extraction from the second flags byte, for in-range field values. -/
theorem f2_masks : ∀ r < 2, ∀ z < 8, ∀ c < 16,
    ((r <<< 7 ||| (z <<< 4) % 256 ||| c) &&& 128) = r * 128 ∧
    ((r <<< 7 ||| (z <<< 4) % 256 ||| c) &&& 112) >>> 4 = z ∧
    ((r <<< 7 ||| (z <<< 4) % 256 ||| c) &&& 15) = c := by
  decide

/-- A wrapped `u8` shift by 3 depends only on the value mod 32. -/
theorem shl3_mod (o : Nat) : (o <<< 3) % 256 = (o % 32) <<< 3 := by
  rw [Nat.shiftLeft_eq, Nat.shiftLeft_eq]
  norm_num
  rw [(by norm_num : (256 : Nat) = 32 * 8)]
  exact Nat.mul_mod_mul_right 8 o 32

/-- A wrapped `u8` shift by 4 depends only on the value mod 16. -/
theorem shl4_mod (z : Nat) : (z <<< 4) % 256 = (z % 16) <<< 4 := by
  rw [Nat.shiftLeft_eq, Nat.shiftLeft_eq]
  norm_num
  rw [(by norm_num : (256 : Nat) = 16 * 16)]
  exact Nat.mul_mod_mul_right 16 z 16

/-- The opcode bit field of the first flags byte reads back the opcode mod 16
even for out-of-range opcodes (whose excess bits spill elsewhere). -/
theorem f1_op_readback : ∀ q < 2, ∀ o < 32, ∀ a < 2, ∀ t < 2, ∀ r < 2,
    ((q <<< 7 ||| o <<< 3 ||| a <<< 2 ||| t <<< 1 ||| r) &&& 120) >>> 3 =
      o % 16 := by
  decide

/-- Low masks of the shifted flag components vanish. -/
theorem shl7_and_15 : ∀ q < 2, (q <<< 7) &&& 15 = 0 := by decide

/-- Low masks of the wrapped `z` shift vanish. -/
theorem shl4_and_15 : ∀ w < 16, (w <<< 4) &&& 15 = 0 := by decide

/-- Wire encoding of one inline label: its length byte followed by its raw
bytes (lengths 1..=63 on real wire data). -/
def encLabel (l : List Nat) : List Nat := l.length :: l

/-- Wire encoding of a sequence of inline labels. -/
def encInline : List (List Nat) → List Nat
  | [] => []
  | l :: ls => encLabel l ++ encInline ls

/-- Bytes in the range of a compression pointer's first byte satisfy the
code's pointer test. -/
theorem isptr_of_range (hi : Nat) (h1 : 192 ≤ hi) (h2 : hi < 256) :
    is_valid_compression_pointer hi = true := by
  have hdiv : hi >>> 6 = 3 := by
    rw [Nat.shiftRight_eq_div_pow]
    have h64 : (2 : Nat) ^ 6 = 64 := by norm_num
    rw [h64]
    omega
  rw [is_valid_compression_pointer, hdiv]
  rfl

/-- Core compression lemma: a name made of well-formed inline labels followed
by a compression pointer decodes to the inline label bytes followed by the
pointer target's decoded labels, ending at the pointer's second byte. -/
theorem parseLabelsGo_inline_ptr (fuel : Nat) (data : List Nat) (hi lo : Nat)
    (L : List Nat) (fin : Nat)
    (hhi1 : 192 ≤ hi) (hhi2 : hi < 256)
    (hoff : 12 ≤ (hi * 256 + lo) &&& 16383)
    (htgt : parseLabelsGo fuel data (((hi * 256 + lo) &&& 16383) - 12) =
      some (.ok (L, fin))) :
    ∀ (lbls : List (List Nat)) (pre post : List Nat),
      (∀ l ∈ lbls, 1 ≤ l.length ∧ l.length ≤ 63) →
      data = pre ++ (encInline lbls ++ ([hi, lo] ++ post)) →
      parseLabelsGo (fuel + 1 + lbls.length) data pre.length =
        some (.ok (encInline lbls ++ L,
          pre.length + (encInline lbls).length + 1)) := by
  intro lbls
  induction lbls with
  | nil =>
    intro pre post _ hdata
    show parseLabelsGo (fuel + 1) data pre.length =
      some (.ok (L, pre.length + 1))
    have hget : data.get? pre.length = some hi := by
      rw [hdata, get?_append_len]
      rfl
    have hget2 : data.get? (pre.length + 1) = some lo := by
      rw [hdata, get?_append_len_add]
      rfl
    rw [parseLabelsGo]
    simp only [hget]
    rw [if_neg (by omega : ¬hi = 0), if_neg (by omega : ¬hi ≤ 63),
      if_pos (isptr_of_range hi hhi1 hhi2)]
    simp only [hget2]
    rw [if_neg (by omega : ¬(hi * 256 + lo) &&& 16383 < 12)]
    simp only [htgt]
  | cons l ls ih =>
    intro pre post hgood hdata
    have hl := hgood l (List.mem_cons_self l ls)
    have hgood' : ∀ l' ∈ ls, 1 ≤ l'.length ∧ l'.length ≤ 63 := by
      intro l' hmem
      exact hgood l' (List.mem_cons_of_mem l hmem)
    have hdata' : data = (pre ++ encLabel l) ++
        (encInline ls ++ ([hi, lo] ++ post)) := by
      rw [hdata]
      simp [encInline, List.append_assoc]
    have harr : fuel + 1 + (l :: ls).length = (fuel + 1 + ls.length) + 1 := by
      simp only [List.length_cons]
      omega
    rw [harr, parseLabelsGo]
    have hget : data.get? pre.length = some l.length := by
      rw [hdata, get?_append_len]
      simp [encInline, encLabel]
    simp only [hget]
    rw [if_neg (by omega : ¬l.length = 0), if_pos (by omega : l.length ≤ 63)]
    have hbound : pre.length + l.length + 1 ≤ data.length := by
      rw [hdata]
      simp [encInline, encLabel]
      omega
    rw [if_pos hbound]
    have hplen : (pre ++ encLabel l).length = pre.length + l.length + 1 := by
      simp only [List.length_append, encLabel, List.length_cons]
      omega
    have hrec := ih (pre ++ encLabel l) post hgood' hdata'
    rw [hplen] at hrec
    simp only [hrec]
    have hdrop : (data.drop pre.length).take (l.length + 1) = encLabel l := by
      rw [hdata, List.drop_left]
      rw [(show l.length + 1 = (encLabel l).length by simp [encLabel])]
      rw [(show encInline (l :: ls) ++ ([hi, lo] ++ post) =
        encLabel l ++ (encInline ls ++ ([hi, lo] ++ post)) by
          simp [encInline, List.append_assoc])]
      exact List.take_left _ _
    rw [hdrop]
    simp only [Option.some.injEq, Except.ok.injEq, Prod.mk.injEq]
    constructor
    · simp [encInline, List.append_assoc]
    · simp [encInline, encLabel, List.length_append]
      omega

/-! ### Claim theorems -/

/-- C3: for every header whose fields lie within their declared bit widths
(`op_code`, `rcode` in 0..=15, `z` in 0..=7, 16-bit id and counts), decoding
the 12-byte encoding yields the header back, the reserved `z` field
included. -/
theorem c3_header_roundtrip (h : DnsMessageHeader)
    (hid : h.id < 65536) (hop : h.op_code < 16) (hz : h.z < 8)
    (hrc : h.rcode < 16) (hqd : h.qd_count < 65536) (han : h.an_count < 65536)
    (hns : h.ns_count < 65536) (har : h.ar_count < 65536) :
    headerTryFrom (headerToBytes h) = Except.ok h := by
  obtain ⟨id, qr, op, aa, tc, rd, ra, z, rc, qd, an, ns, ar⟩ := h
  simp only at hid hop hz hrc hqd han hns har
  have step : headerTryFrom
      (headerToBytes ⟨id, qr, op, aa, tc, rd, ra, z, rc, qd, an, ns, ar⟩) =
      Except.ok
        { id := (id / 256 % 256) * 256 + id % 256
          qr := (((b2n qr <<< 7 ||| (op <<< 3) % 256 ||| b2n aa <<< 2 |||
            b2n tc <<< 1 ||| b2n rd) &&& 128) != 0)
          op_code := ((b2n qr <<< 7 ||| (op <<< 3) % 256 ||| b2n aa <<< 2 |||
            b2n tc <<< 1 ||| b2n rd) &&& 120) >>> 3
          aa := (((b2n qr <<< 7 ||| (op <<< 3) % 256 ||| b2n aa <<< 2 |||
            b2n tc <<< 1 ||| b2n rd) &&& 4) != 0)
          tc := (((b2n qr <<< 7 ||| (op <<< 3) % 256 ||| b2n aa <<< 2 |||
            b2n tc <<< 1 ||| b2n rd) &&& 2) != 0)
          rd := (((b2n qr <<< 7 ||| (op <<< 3) % 256 ||| b2n aa <<< 2 |||
            b2n tc <<< 1 ||| b2n rd) &&& 1) != 0)
          ra := (((b2n ra <<< 7 ||| (z <<< 4) % 256 ||| rc) &&& 128) != 0)
          z := ((b2n ra <<< 7 ||| (z <<< 4) % 256 ||| rc) &&& 112) >>> 4
          rcode := (b2n ra <<< 7 ||| (z <<< 4) % 256 ||| rc) &&& 15
          qd_count := (qd / 256 % 256) * 256 + qd % 256
          an_count := (an / 256 % 256) * 256 + an % 256
          ns_count := (ns / 256 % 256) * 256 + ns % 256
          ar_count := (ar / 256 % 256) * 256 + ar % 256 } := rfl
  rw [step]
  simp only [Except.ok.injEq, DnsMessageHeader.mk.injEq]
  obtain ⟨g1, g2, g3⟩ := f2_masks (b2n ra) (b2n_lt_two ra) z hz rc hrc
  refine ⟨by omega, ?_, ?_, ?_, ?_, ?_, ?_, g2, g3, by omega, by omega,
    by omega, by omega⟩
  · rw [f1_mask_qr (b2n qr) (b2n_lt_two qr) op hop (b2n aa) (b2n_lt_two aa)
      (b2n tc) (b2n_lt_two tc) (b2n rd) (b2n_lt_two rd)]
    cases qr <;> simp [b2n]
  · exact f1_mask_op (b2n qr) (b2n_lt_two qr) op hop (b2n aa) (b2n_lt_two aa)
      (b2n tc) (b2n_lt_two tc) (b2n rd) (b2n_lt_two rd)
  · rw [f1_mask_aa (b2n qr) (b2n_lt_two qr) op hop (b2n aa) (b2n_lt_two aa)
      (b2n tc) (b2n_lt_two tc) (b2n rd) (b2n_lt_two rd)]
    cases aa <;> simp [b2n]
  · rw [f1_mask_tc (b2n qr) (b2n_lt_two qr) op hop (b2n aa) (b2n_lt_two aa)
      (b2n tc) (b2n_lt_two tc) (b2n rd) (b2n_lt_two rd)]
    cases tc <;> simp [b2n]
  · rw [f1_mask_rd (b2n qr) (b2n_lt_two qr) op hop (b2n aa) (b2n_lt_two aa)
      (b2n tc) (b2n_lt_two tc) (b2n rd) (b2n_lt_two rd)]
    cases rd <;> simp [b2n]
  · rw [g1]
    cases ra <;> simp [b2n]

/-- C3 witness: the round-trip at a concrete in-range header with a nonzero
reserved `z` field. -/
theorem c3_witness :
    headerTryFrom (headerToBytes { exHeader with z := 5, rcode := 3 }) =
      Except.ok { exHeader with z := 5, rcode := 3 } :=
  c3_header_roundtrip { exHeader with z := 5, rcode := 3 } (by decide)
    (by decide) (by decide) (by decide) (by decide) (by decide) (by decide)
    (by decide)

/-- C4: a name consisting of well-formed inline labels followed by a
compression pointer whose 14-bit value is the absolute byte offset `off ≥ 12`
of a name in the full message (the parsed buffer being the message without
its 12-byte header, the target lies at buffer index `off - 12`) decodes to
exactly the label bytes of the inline part followed by the label sequence
obtained by decoding the pointer's target directly; with no inline labels it
is literally the target's label sequence. -/
theorem c4_compression_expansion (fuel : Nat) (pre post L : List Nat)
    (lbls : List (List Nat)) (hi lo m : Nat)
    (hgood : ∀ l ∈ lbls, 1 ≤ l.length ∧ l.length ≤ 63)
    (hhi1 : 192 ≤ hi) (hhi2 : hi < 256)
    (hoff : 12 ≤ (hi * 256 + lo) &&& 16383)
    (htgt : parse_labels fuel (pre ++ (encInline lbls ++ ([hi, lo] ++ post)))
      (((hi * 256 + lo) &&& 16383) - 12) = some (.ok (L, m))) :
    parse_labels (fuel + 1 + lbls.length)
      (pre ++ (encInline lbls ++ ([hi, lo] ++ post))) pre.length =
      some (.ok (encInline lbls ++ L, (encInline lbls).length + 2)) := by
  rw [parse_labels] at htgt
  split at htgt
  next labels fin hgo =>
    simp only [Option.some.injEq, Except.ok.injEq, Prod.mk.injEq] at htgt
    rcases htgt with ⟨hL, _⟩
    subst hL
    have hmain := parseLabelsGo_inline_ptr fuel
      (pre ++ (encInline lbls ++ ([hi, lo] ++ post))) hi lo labels fin
      hhi1 hhi2 hoff hgo lbls pre post hgood rfl
    rw [parse_labels, hmain]
    simp only [Option.some.injEq, Except.ok.injEq, Prod.mk.injEq, true_and]
    omega
  next e hgo => simp at htgt
  next hgo => simp at htgt

/-- C4 witness: a message whose first name is `abc.com` at buffer index 0
(absolute offset 12) and whose second name is the bare pointer `0xC00C`
decodes the second name to exactly the first name's label sequence. -/
theorem c4_witness :
    parse_labels 64 [3, 97, 98, 99, 3, 99, 111, 109, 0, 192, 12] 9 =
      some (.ok ([3, 97, 98, 99, 3, 99, 111, 109, 0], 2)) := by
  have h := c4_compression_expansion 63 [3, 97, 98, 99, 3, 99, 111, 109, 0]
    [] [3, 97, 98, 99, 3, 99, 111, 109, 0] [] 192 12 9 (by simp)
    (by norm_num) (by norm_num) (by decide) (by decide)
  simpa [encInline] using h

/-- C5: for a name of well-formed inline labels ending in a compression
pointer, the bytes-consumed count returned by `parse_labels` is the inline
byte count plus the pointer's own 2 bytes, independent of how many bytes the
decode at the pointer's target read. -/
theorem c5_bytes_consumed (fuel : Nat) (pre post L : List Nat)
    (lbls : List (List Nat)) (hi lo m : Nat)
    (hgood : ∀ l ∈ lbls, 1 ≤ l.length ∧ l.length ≤ 63)
    (hhi1 : 192 ≤ hi) (hhi2 : hi < 256)
    (hoff : 12 ≤ (hi * 256 + lo) &&& 16383)
    (htgt : parse_labels fuel (pre ++ (encInline lbls ++ ([hi, lo] ++ post)))
      (((hi * 256 + lo) &&& 16383) - 12) = some (.ok (L, m))) :
    ∀ (ls : List Nat) (n : Nat),
      parse_labels (fuel + 1 + lbls.length)
        (pre ++ (encInline lbls ++ ([hi, lo] ++ post))) pre.length =
        some (.ok (ls, n)) →
      n = (encInline lbls).length + 2 := by
  intro ls n hrun
  rw [parse_labels] at htgt
  split at htgt
  next labels fin hgo =>
    simp only [Option.some.injEq, Except.ok.injEq, Prod.mk.injEq] at htgt
    rcases htgt with ⟨hL, _⟩
    subst hL
    have hmain := parseLabelsGo_inline_ptr fuel
      (pre ++ (encInline lbls ++ ([hi, lo] ++ post))) hi lo labels fin
      hhi1 hhi2 hoff hgo lbls pre post hgood rfl
    rw [parse_labels, hmain] at hrun
    simp only [Option.some.injEq, Except.ok.injEq, Prod.mk.injEq] at hrun
    omega
  next e hgo => simp at htgt
  next hgo => simp at htgt

/-- C5 witness: a name with one inline label (`d`) followed by a pointer
consumes 4 bytes (2 inline + 2 pointer), not the 9 bytes of the target. -/
theorem c5_witness :
    (4 : Nat) = (encInline [[100]]).length + 2 :=
  c5_bytes_consumed 63 [3, 97, 98, 99, 3, 99, 111, 109, 0] []
    [3, 97, 98, 99, 3, 99, 111, 109, 0] [[100]] 192 12 9 (by simp)
    (by norm_num) (by norm_num) (by decide) (by decide)
    [1, 100, 3, 97, 98, 99, 3, 99, 111, 109, 0] 4 (by decide)

/-- C9: corrected. Encoding always produces exactly 12 bytes, and the
`op_code`/`rcode` bit fields read back their value mod 16 (silent truncation)
for arbitrary field values, but an out-of-range value's excess bits spill
into the neighbouring flag bits instead of being masked away (see the
counterexample: `op_code = 16` sets the `qr` bit). -/
theorem c9_encode_shape (h : DnsMessageHeader) :
    (headerToBytes h).length = 12 ∧
    (((headerToBytes h).getD 2 0) &&& 120) >>> 3 = h.op_code % 16 ∧
    (((headerToBytes h).getD 3 0) &&& 15) = h.rcode % 16 := by
  obtain ⟨id, qr, op, aa, tc, rd, ra, z, rc, qd, an, ns, ar⟩ := h
  refine ⟨rfl, ?_, ?_⟩
  · have hb2 : (headerToBytes ⟨id, qr, op, aa, tc, rd, ra, z, rc, qd, an,
        ns, ar⟩).getD 2 0 =
        b2n qr <<< 7 ||| (op <<< 3) % 256 ||| b2n aa <<< 2 |||
          b2n tc <<< 1 ||| b2n rd := rfl
    rw [hb2, shl3_mod]
    rw [f1_op_readback (b2n qr) (b2n_lt_two qr) (op % 32)
      (Nat.mod_lt _ (by norm_num)) (b2n aa) (b2n_lt_two aa) (b2n tc)
      (b2n_lt_two tc) (b2n rd) (b2n_lt_two rd)]
    exact Nat.mod_mod_of_dvd op (by norm_num)
  · have hb3 : (headerToBytes ⟨id, qr, op, aa, tc, rd, ra, z, rc, qd, an,
        ns, ar⟩).getD 3 0 =
        b2n ra <<< 7 ||| (z <<< 4) % 256 ||| rc := rfl
    rw [hb3]
    rw [Nat.and_distrib_right, Nat.and_distrib_right]
    rw [shl7_and_15 (b2n ra) (b2n_lt_two ra)]
    rw [shl4_mod, shl4_and_15 (z % 16) (Nat.mod_lt _ (by norm_num))]
    rw [(by norm_num : (15 : Nat) = 2 ^ 4 - 1),
      Nat.and_pow_two_sub_one_eq_mod]
    simp

/-- The header used to refute C9 as stated: out-of-range `op_code = 16`,
with `qr = false` and every other field zero. -/
def c9Header : DnsMessageHeader :=
  { id := 0, qr := false, op_code := 16, aa := false, tc := false,
    rd := false, ra := false, z := 0, rcode := 0, qd_count := 0,
    an_count := 0, ns_count := 0, ar_count := 0 }

/-- C9 counterexample: with `op_code = 16` (out of range) and `qr = false`,
the encoded `qr` bit is set, while truncating `op_code` to its declared 4-bit
width (`16 mod 16 = 0`) leaves it clear — so out-of-range values do not leave
the other fields' encoded bits unaffected. -/
theorem c9_counterexample :
    c9Header.qr = false ∧
    ((headerToBytes c9Header).getD 2 0) &&& 128 = 128 ∧
    ((headerToBytes { c9Header with op_code := 16 % 16 }).getD 2 0) &&& 128 =
      0 := by
  decide

/-- A successful `resolveGo` run produced one answer per question, each
question's round-trip having succeeded. -/
theorem resolveGo_ok_full :
    ∀ (qs : List DnsMessageQuestion) (net : List Nat → Except Unit (List Nat))
      (hb : List Nat) (answers : List DnsMessageResponse),
      resolveGo net hb qs = some (.ok answers) →
      answers.length = qs.length ∧
      ∀ q ∈ qs, ∃ r, processOne net hb q = some (.ok r) := by
  intro qs
  induction qs with
  | nil =>
    intro net hb answers h
    simp only [resolveGo, Option.some.injEq, Except.ok.injEq] at h
    rw [← h]
    simp
  | cons q qs ih =>
    intro net hb answers h
    simp only [resolveGo] at h
    split at h
    next r hone =>
      split at h
      next rs hrest =>
        simp only [Option.some.injEq, Except.ok.injEq] at h
        obtain ⟨hlen, hall⟩ := ih net hb rs hrest
        rw [← h]
        refine ⟨by simp [hlen], ?_⟩
        intro q' hmem
        rcases List.mem_cons.mp hmem with hq' | hq'
        · exact ⟨r, hq' ▸ hone⟩
        · exact hall q' hq'
      next e hrest => simp at h
      next hrest => simp at h
    next e hone => simp at h
    next hone => simp at h

/-- C1: corrected. When no upstream resolver is configured the server does
not synthesize any answers: for every successfully decoded request it replies
with the echoed questions only, `an_count = 0`, and an empty answer
section. -/
theorem c1_no_resolver_zero_answers (fuel : Nat) (buf : List Nat) (size : Nat)
    (hdr : DnsMessageHeader) (qs : List DnsMessageQuestion)
    (_hsize : 12 ≤ size)
    (hh : headerTryFrom (buf.take 12) = Except.ok hdr)
    (hq : dns_questions_from_bytes fuel (buf.drop 12) (size - 12)
      hdr.qd_count = some (Except.ok qs)) :
    handle_request fuel Option.none buf size =
      some (some (assemble hdr qs [])) ∧
    (build_response_header hdr qs.length 0).an_count = 0 ∧
    assemble hdr qs [] =
      headerToBytes (build_response_header hdr qs.length 0) ++
        (qs.map questionToBytes).flatten := by
  refine ⟨?_, rfl, ?_⟩
  · rw [handle_request]
    simp only [hh, hq]
  · rw [assemble]
    simp

/-- C1 witness: the amended behaviour at a concrete one-question request. -/
theorem c1_witness :
    handle_request 64 Option.none exRequest 25 =
      some (some (assemble exHeader [exQuestion] [])) :=
  (c1_no_resolver_zero_answers 64 exRequest 25 exHeader [exQuestion]
    (by norm_num) (by decide) (by decide)).1

/-- The reply the server sends for `exRequest` when no upstream resolver is
configured: the response header (`qr` set, `an_count = 0`) and the echoed
question; no answer section. -/
def exNoForwardReply : List Nat :=
  [18, 52, 129, 0, 0, 1, 0, 0, 0, 0, 0, 0,
   3, 97, 98, 99, 3, 99, 111, 109, 0, 0, 1, 0, 1]

/-- C1 counterexample: for the concrete one-question request `exRequest` with
no upstream resolver configured, the response's `an_count` bytes (offsets
6-7) are zero and the reply is exactly 25 bytes (12-byte header plus the
13-byte echoed question) — there is no synthesized answer, contradicting the
claim that the response carries one `ttl = 60` answer per question with
`an_count` equal to the question count (here 1). -/
theorem c1_counterexample :
    handle_request 64 Option.none exRequest 25 = some (some exNoForwardReply) ∧
    exNoForwardReply.getD 6 0 * 256 + exNoForwardReply.getD 7 0 = 0 ∧
    exHeader.qd_count = 1 ∧
    exNoForwardReply.length = 25 := by
  decide

/-- C6: forwarding is all-or-nothing. A successful resolution produced one
answer per question (so a response can never carry a partial answer set),
and when resolution of any question fails with a decode or transport error,
the server's reply is the full echoed question list with `an_count = 0` and
no answer bytes. -/
theorem c6_forwarding_all_or_nothing :
    (∀ (net : List Nat → Except Unit (List Nat)) (hdr : DnsMessageHeader)
      (qs : List DnsMessageQuestion) (answers : List DnsMessageResponse),
      resolve_questions net hdr qs = some (Except.ok answers) →
      answers.length = qs.length ∧
      ∀ q ∈ qs, ∃ r, processOne net
        (headerToBytes { hdr with qd_count := 1 }) q = some (Except.ok r)) ∧
    (∀ (fuel : Nat) (net : List Nat → Except Unit (List Nat))
      (buf : List Nat) (size : Nat) (hdr : DnsMessageHeader)
      (qs : List DnsMessageQuestion) (e : DnsError),
      12 ≤ size →
      headerTryFrom (buf.take 12) = Except.ok hdr →
      dns_questions_from_bytes fuel (buf.drop 12) (size - 12) hdr.qd_count =
        some (Except.ok qs) →
      resolve_questions net hdr qs = some (Except.error e) →
      handle_request fuel (some net) buf size =
        some (some (assemble hdr qs [])) ∧
      (build_response_header hdr qs.length 0).an_count = 0) := by
  constructor
  · intro net hdr qs answers h
    rw [resolve_questions] at h
    exact resolveGo_ok_full qs net _ answers h
  · intro fuel net buf size hdr qs e _hsize hh hq hres
    refine ⟨?_, rfl⟩
    rw [handle_request]
    simp only [hh, hq, hres]

set_option maxRecDepth 4096 in
/-- C6 witness: with a failing upstream transport the concrete one-question
request gets a question-only reply, and with a working upstream the answer
count matches the question count. -/
theorem c6_witness :
    ([exAnswer].length = [exQuestion].length) ∧
    handle_request 64 (some exFailNet) exRequest 25 =
      some (some (assemble exHeader [exQuestion] [])) :=
  ⟨(c6_forwarding_all_or_nothing.1 exGoodNet exHeader [exQuestion] [exAnswer]
      (by decide)).1,
   (c6_forwarding_all_or_nothing.2 64 exFailNet exRequest 25 exHeader
      [exQuestion] DnsError.IoError (by norm_num) (by decide) (by decide)
      (by decide)).1⟩

/-- C2: refuted on the code (the claim is right about the intended design;
the code violates it). `parse_labels` is not panic-free: a name consisting of
a compression pointer to absolute offset 5 makes `offset as usize - 12`
underflow (panic in a debug build, wraparound to an out-of-bounds index in a
release build), and a truncated label (declared length 1 with no following
byte) makes the unchecked slice `data[index..index + len + 1]` go out of
bounds. Both runs are panics (`none`), not the `InvalidQuestion` error the
claim promises. -/
theorem c2_parse_labels_panics :
    parse_labels 64 [192, 5] 0 = none ∧ parse_labels 64 [1] 0 = none := by
  decide

/-- C10: `parse_question` rejects a name beginning with a zero byte (the root
domain name) with `InvalidQuestion`, and consequently every successfully
decoded question has a non-empty name. -/
theorem c10_root_name_rejected :
    (∀ (fuel : Nat) (data : List Nat) (size q_index : Nat),
      data.get? q_index = some 0 →
      parse_question fuel data size q_index =
        some (.error DnsError.InvalidQuestion)) ∧
    (∀ (fuel : Nat) (data : List Nat) (size q_index : Nat)
      (q : DnsMessageQuestion) (n : Nat),
      parse_question fuel data size q_index = some (.ok (q, n)) →
      q.name ≠ []) := by
  constructor
  · intro fuel data size q_index hg
    rw [parse_question, hg]
    simp
  · intro fuel data size q_index q n h
    rw [parse_question] at h
    split at h
    · simp at h
    · split at h
      · simp at h
      · split at h
        · simp at h
        · rcases hp : parse_labels fuel data q_index with _ | r <;>
            rw [hp] at h
          · simp at h
          · rcases r with e | ⟨labels, lsz⟩
            · simp at h
            · simp only at h
              split at h
              · simp at h
              · split at h
                · simp only [Option.some.injEq, Except.ok.injEq,
                    Prod.mk.injEq] at h
                  rcases h with ⟨h1, _⟩
                  rw [← h1]
                  simp only
                  rw [parse_labels] at hp
                  split at hp
                  next labels' fin hgo =>
                    simp only [Option.some.injEq, Except.ok.injEq,
                      Prod.mk.injEq] at hp
                    rcases hp with ⟨hp1, _⟩
                    rw [← hp1]
                    exact parseLabelsGo_ok_ne_nil fuel data q_index _ _ hgo
                  next e hgo => simp at hp
                  next hgo => simp at hp
                · simp at h

/-- C10 witness: the root name `[0]` is rejected and a concretely decoded
question has a non-empty name. -/
theorem c10_witness :
    parse_question 4 [0] 5 0 = some (.error DnsError.InvalidQuestion) ∧
    exQuestion.name ≠ [] :=
  ⟨c10_root_name_rejected.1 4 [0] 5 0 (by decide),
   c10_root_name_rejected.2 64 [3, 97, 98, 99, 3, 99, 111, 109, 0, 0, 1, 0, 1]
     13 0 exQuestion 13 (by decide)⟩

/-- C7: whenever the question's name decodes consuming `n` bytes but fewer
than 4 bytes remain up to the declared size (`q_index + n + 4 > size`),
`parse_question` returns `InvalidQuestion`. -/
theorem c7_truncated_question_rejected
    (fuel : Nat) (data : List Nat) (size q_index : Nat) (ls : List Nat)
    (n : Nat)
    (hlbl : parse_labels fuel data q_index = some (.ok (ls, n)))
    (htrunc : q_index + n + 4 > size) :
    parse_question fuel data size q_index =
      some (.error DnsError.InvalidQuestion) := by
  have hgo : ∃ b, data.get? q_index = some b := by
    rw [parse_labels] at hlbl
    split at hlbl
    next labels fin hgo =>
      cases fuel with
      | zero => simp [parseLabelsGo] at hgo
      | succ fuel =>
        rw [parseLabelsGo] at hgo
        rcases hg : data.get? q_index with _ | b <;> rw [hg] at hgo
        · simp at hgo
        · exact ⟨b, rfl⟩
    next e hgo => simp at hlbl
    next hgo => simp at hlbl
  rcases hgo with ⟨b, hg⟩
  rw [parse_question]
  simp only [hg]
  by_cases hb0 : b = 0
  · rw [if_pos hb0]
  · rw [if_neg hb0]
    by_cases hsz : size < q_index + b + 1
    · rw [if_pos hsz]
    · rw [if_neg hsz, hlbl]
      simp only
      rw [if_pos htrunc]

/-- C7 witness: truncating the 4 qtype/class bytes of a question (declared
size 6 instead of 9) yields `InvalidQuestion`. -/
theorem c7_witness :
    parse_question 64 [3, 97, 98, 99, 0, 0, 1] 6 0 =
      some (.error DnsError.InvalidQuestion) :=
  c7_truncated_question_rejected 64 [3, 97, 98, 99, 0, 0, 1] 6 0
    [3, 97, 98, 99, 0] 5 (by decide) (by decide)

/-- C8: resource-record decoding returns `InvalidResponse` on a leading zero
byte and on an rdlength that would overrun the buffer, and on success the
decoded `length` field equals the byte length of the decoded rdata. -/
theorem c8_response_decode :
    (∀ data : List Nat, data.get? 0 = some 0 →
      dns_response_from_bytes data = some (.error DnsError.InvalidResponse)) ∧
    (∀ (data : List Nat) (b0 : Nat), data.get? 0 = some b0 → b0 ≠ 0 →
      (respNameOf data).length + 10 ≤ data.length →
      data.length < (respNameOf data).length + 10 + respRdlenOf data →
      dns_response_from_bytes data = some (.error DnsError.InvalidResponse)) ∧
    (∀ (data : List Nat) (r : DnsMessageResponse),
      dns_response_from_bytes data = some (.ok r) →
      r.length = r.data.length) := by
  refine ⟨?_, ?_, ?_⟩
  · intro data hg
    rw [dns_response_from_bytes, hg]
    simp
  · intro data b0 hg hb0 hfit hover
    rw [dns_response_from_bytes]
    simp only [hg]
    rw [if_neg hb0]
    rw [if_neg (by omega : ¬(respNameOf data).length + 10 > data.length)]
    rw [if_pos (by omega : (respNameOf data).length + 10 + respRdlenOf data > data.length)]
  · intro data r h
    rw [dns_response_from_bytes] at h
    split at h
    · simp at h
    · split at h
      · simp at h
      · simp only at h
        split at h
        · simp at h
        · split at h
          · simp at h
          · simp only [Option.some.injEq, Except.ok.injEq] at h
            rw [← h]
            simp only [List.length_take, List.length_drop]
            omega

/-- C8 witness: a leading zero byte and an overrunning rdlength are rejected,
and a well-formed record decodes with `length = rdata.len()`. -/
theorem c8_witness :
    dns_response_from_bytes [0, 9] = some (.error DnsError.InvalidResponse) ∧
    dns_response_from_bytes [1, 97, 0, 0, 1, 0, 1, 0, 0, 0, 60, 0, 4, 1, 2, 3] =
      some (.error DnsError.InvalidResponse) ∧
    exAnswer.length = exAnswer.data.length :=
  ⟨c8_response_decode.1 [0, 9] (by decide),
   c8_response_decode.2.1 [1, 97, 0, 0, 1, 0, 1, 0, 0, 0, 60, 0, 4, 1, 2, 3] 1
     (by decide) (by decide) (by decide) (by decide),
   c8_response_decode.2.2
     [3, 97, 98, 99, 3, 99, 111, 109, 0, 0, 1, 0, 1, 0, 0, 0, 60, 0, 4, 8, 8, 8, 8]
     exAnswer (by decide)⟩

end DnsServer
